import Mathlib

/-!
Shallow embedding of `hono-linebot-middleware` (src/unnamed/part_000).

The repository exports three functions:
  * `importKeyFromChannelSecret` — wraps `crypto.subtle.importKey("raw", utf8(secret), HMAC/SHA-256, false, ["verify"])`;
  * `validateSignature` — `decodeBase64` (from hono, atob-based) followed by `crypto.subtle.verify("HMAC", ...)`;
  * `lineBotMiddleware` — the Hono middleware closure.

Bytes are `Nat`s below 256 in `List Nat`; machine 32-bit words are `Nat`
reduced modulo 2^32 where the algorithm overflows.  Promises are erased
(the embedded functions return their resolved values); a thrown exception
is `Option.none` / `Except.error`.
-/

/-- Truncation to a 32-bit machine word. -/
def w32 (n : Nat) : Nat := n % 4294967296

/-- Right rotation of a 32-bit word (input assumed below 2^32). -/
def rotr (n x : Nat) : Nat := (x % (1 <<< n)) * (1 <<< (32 - n)) + (x >>> n)

/-- SHA-256 Ch function. -/
def shaCh (x y z : Nat) : Nat := (x &&& y) ^^^ ((x ^^^ 4294967295) &&& z)

/-- SHA-256 Maj function. -/
def shaMaj (x y z : Nat) : Nat := (x &&& y) ^^^ (x &&& z) ^^^ (y &&& z)

/-- SHA-256 big sigma 0. -/
def bsig0 (x : Nat) : Nat := rotr 2 x ^^^ rotr 13 x ^^^ rotr 22 x

/-- SHA-256 big sigma 1. -/
def bsig1 (x : Nat) : Nat := rotr 6 x ^^^ rotr 11 x ^^^ rotr 25 x

/-- SHA-256 small sigma 0. -/
def ssig0 (x : Nat) : Nat := rotr 7 x ^^^ rotr 18 x ^^^ (x >>> 3)

/-- SHA-256 small sigma 1. -/
def ssig1 (x : Nat) : Nat := rotr 17 x ^^^ rotr 19 x ^^^ (x >>> 10)

/-- The 64 SHA-256 round constants. -/
def shaK : List Nat :=
  [1116352408, 1899447441, 3049323471, 3921009573, 961987163, 1508970993,
   2453635748, 2870763221, 3624381080, 310598401, 607225278, 1426881987,
   1925078388, 2162078206, 2614888103, 3248222580, 3835390401, 4022224774,
   264347078, 604807628, 770255983, 1249150122, 1555081692, 1996064986,
   2554220882, 2821834349, 2952996808, 3210313671, 3336571891, 3584528711,
   113926993, 338241895, 666307205, 773529912, 1294757372, 1396182291,
   1695183700, 1986661051, 2177026350, 2456956037, 2730485921, 2820302411,
   3259730800, 3345764771, 3516065817, 3600352804, 4094571909, 275423344,
   430227734, 506948616, 659060556, 883997877, 958139571, 1322822218,
   1537002063, 1747873779, 1955562222, 2024104815, 2227730452, 2361852424,
   2428436474, 2756734187, 3204031479, 3329325298]

/-- The SHA-256 working state (eight 32-bit words). -/
structure Hash8 where
  a : Nat
  b : Nat
  c : Nat
  d : Nat
  e : Nat
  f : Nat
  g : Nat
  h : Nat
deriving DecidableEq

/-- SHA-256 initial hash value. -/
def shaH0 : Hash8 :=
  ⟨1779033703, 3144134277, 1013904242, 2773480762,
   1359893119, 2600822924, 528734635, 1541459225⟩

/-- Big-endian 4-byte groups to 32-bit words. -/
def toWordsBE : List Nat → List Nat
  | b0 :: b1 :: b2 :: b3 :: rest =>
      (b0 * 16777216 + b1 * 65536 + b2 * 256 + b3) :: toWordsBE rest
  | _ => []

/-- A 32-bit word to four big-endian bytes. -/
def wordBytesBE (w : Nat) : List Nat :=
  [(w >>> 24) % 256, (w >>> 16) % 256, (w >>> 8) % 256, w % 256]

/-- Extend the 16-word schedule by `n` further words. -/
def sched : Nat → List Nat → List Nat
  | 0, w => w
  | n + 1, w =>
      sched n (w ++ [w32 (ssig1 (w.getD (w.length - 2) 0) +
        w.getD (w.length - 7) 0 +
        ssig0 (w.getD (w.length - 15) 0) +
        w.getD (w.length - 16) 0)])

/-- One SHA-256 compression round. -/
def shaRound (kt wt : Nat) (s : Hash8) : Hash8 :=
  let t1 := w32 (s.h + bsig1 s.e + shaCh s.e s.f s.g + kt + wt)
  let t2 := w32 (bsig0 s.a + shaMaj s.a s.b s.c)
  ⟨w32 (t1 + t2), s.a, s.b, s.c, w32 (s.d + t1), s.e, s.f, s.g⟩

/-- Fold the compression rounds over constants and schedule. -/
def shaRounds : List Nat → List Nat → Hash8 → Hash8
  | k :: ks, w :: ws, s => shaRounds ks ws (shaRound k w s)
  | _, _, s => s

/-- Process one 64-byte chunk. -/
def shaChunk (s : Hash8) (chunk : List Nat) : Hash8 :=
  let w := sched 48 (toWordsBE chunk)
  let r := shaRounds shaK w s
  ⟨w32 (s.a + r.a), w32 (s.b + r.b), w32 (s.c + r.c), w32 (s.d + r.d),
   w32 (s.e + r.e), w32 (s.f + r.f), w32 (s.g + r.g), w32 (s.h + r.h)⟩

/-- SHA-256 message padding for a message of `len` bytes. -/
def shaPad (len : Nat) : List Nat :=
  128 :: List.replicate ((119 - len % 64) % 64) 0 ++
    [((len * 8) >>> 56) % 256, ((len * 8) >>> 48) % 256, ((len * 8) >>> 40) % 256,
     ((len * 8) >>> 32) % 256, ((len * 8) >>> 24) % 256, ((len * 8) >>> 16) % 256,
     ((len * 8) >>> 8) % 256, (len * 8) % 256]

/-- Split into 64-byte chunks (fuel-based structural recursion; the fuel is
an upper bound on the number of chunks, so it never runs out below). -/
def chunks64Go : Nat → List Nat → List (List Nat)
  | _, [] => []
  | 0, _ => []
  | fuel + 1, l => l.take 64 :: chunks64Go fuel (l.drop 64)

/-- Split into 64-byte chunks. -/
def chunks64 (l : List Nat) : List (List Nat) := chunks64Go l.length l

/-- SHA-256 of a byte list. -/
def sha256 (msg : List Nat) : List Nat :=
  let s := (chunks64 (msg ++ shaPad msg.length)).foldl shaChunk shaH0
  [s.a, s.b, s.c, s.d, s.e, s.f, s.g, s.h].flatMap wordBytesBE

/-- HMAC-SHA256 (key, message to 32-byte tag), block size 64. -/
def hmacSha256 (key msg : List Nat) : List Nat :=
  let k0 := if 64 < key.length then sha256 key else key
  let k := k0 ++ List.replicate (64 - k0.length) 0
  sha256 ((k.map fun b => b ^^^ 92) ++ sha256 ((k.map fun b => b ^^^ 54) ++ msg))

/-- UTF-8 encoding of one code point. -/
def utf8Char (c : Char) : List Nat :=
  let n := c.toNat
  if n < 128 then [n]
  else if n < 2048 then [192 + n / 64, 128 + n % 64]
  else if n < 65536 then [224 + n / 4096, 128 + (n / 64) % 64, 128 + n % 64]
  else [240 + n / 262144, 128 + (n / 4096) % 64, 128 + (n / 64) % 64, 128 + n % 64]

/-- UTF-8 encoding of a string (the `TextEncoder().encode` of the source). -/
def utf8Encode (s : String) : List Nat := s.data.flatMap utf8Char

/-- Character of a 6-bit value in the standard Base64 alphabet. -/
def b64Char (v : Nat) : Char :=
  if v < 26 then Char.ofNat (65 + v)
  else if v < 52 then Char.ofNat (97 + v - 26)
  else if v < 62 then Char.ofNat (48 + v - 52)
  else if v = 62 then '+' else '/'

/-- Value of a standard Base64 alphabet character, `none` outside the alphabet. -/
def b64Value (c : Char) : Option Nat :=
  let n := c.toNat
  if 65 ≤ n ∧ n ≤ 90 then some (n - 65)
  else if 97 ≤ n ∧ n ≤ 122 then some (n - 97 + 26)
  else if 48 ≤ n ∧ n ≤ 57 then some (n - 48 + 52)
  else if n = 43 then some 62
  else if n = 47 then some 63
  else none

/-- ASCII whitespace (TAB, LF, FF, CR, SPACE), which `atob` strips. -/
def isB64Ws (c : Char) : Bool :=
  c.toNat = 9 || c.toNat = 10 || c.toNat = 12 || c.toNat = 13 || c.toNat = 32

/-- Bytes to 6-bit groups (4 values per 3 bytes; 2 values for a trailing
byte, 3 values for two trailing bytes). -/
def encodeVals : List Nat → List Nat
  | a :: b :: c :: rest =>
      a / 4 :: ((a % 4) * 16 + b / 16) :: ((b % 16) * 4 + c / 64) :: c % 64 ::
        encodeVals rest
  | [a, b] => [a / 4, (a % 4) * 16 + b / 16, (b % 16) * 4]
  | [a] => [a / 4, (a % 4) * 16]
  | [] => []

/-- 6-bit groups back to bytes (forgiving: a leftover group of 2 or 3
values yields 1 or 2 bytes, low bits discarded; a leftover single value
cannot occur after the length check and yields nothing). -/
def decodeVals : List Nat → List Nat
  | v1 :: v2 :: v3 :: v4 :: rest =>
      (v1 * 4 + v2 / 16) :: ((v2 % 16) * 16 + v3 / 4) :: ((v3 % 4) * 64 + v4) ::
        decodeVals rest
  | [v1, v2, v3] => [v1 * 4 + v2 / 16, (v2 % 16) * 16 + v3 / 4]
  | [v1, v2] => [v1 * 4 + v2 / 16]
  | _ => []

/-- Padding characters of standard Base64 for a byte count `n`. -/
def b64Pads (n : Nat) : List Char :=
  if n % 3 = 1 then ['=', '='] else if n % 3 = 2 then ['='] else []

/-- Reference standard Base64 encoder (RFC 4648 with padding).  This is the
spec's reference `sign` pipeline's encoder, used only to build fixtures; it
is not part of the repository code. -/
def encodeBase64 (l : List Nat) : String :=
  ⟨(encodeVals l).map b64Char ++ b64Pads l.length⟩

/-- Remove one or two trailing padding characters (on the reversed list). -/
def dropPads : List Char → List Char
  | '=' :: '=' :: rest => rest
  | '=' :: rest => rest
  | l => l

/-- Whitespace-stripping stage of forgiving-base64. -/
def b64Filtered (s : String) : List Char :=
  s.data.filter fun c => !isB64Ws c

/-- Padding-stripping stage of forgiving-base64: when the length is a
multiple of 4, up to two trailing `=` are removed. -/
def b64Stripped (s : String) : List Char :=
  if (b64Filtered s).length % 4 = 0 then (dropPads (b64Filtered s).reverse).reverse
  else b64Filtered s

/-- `decodeBase64` as the source uses it: the hono helper
`decodeBase64` (imported from `hono/utils/encode`, a dependency whose code
is not under `src/`) runs the platform `atob` on the string and copies the
resulting binary string into a byte array.  `atob` is the WHATWG
forgiving-base64 decode: strip ASCII whitespace; when the remaining length
is a multiple of 4, drop up to two trailing `=`; fail (here `none`,
modelling the thrown `InvalidCharacterError`) when the length is 1 mod 4
or a character is outside the Base64 alphabet; otherwise decode 6-bit
groups, a trailing group of 2 or 3 characters giving 1 or 2 bytes. -/
def decodeBase64 (s : String) : Option (List Nat) :=
  if (b64Stripped s).length % 4 = 1 then none
  else if (b64Stripped s).any fun c => (b64Value c).isNone then none
  else some (decodeVals ((b64Stripped s).map fun c => (b64Value c).getD 0))

/-- The Web Crypto `CryptoKey` as `importKey` produces it: raw key bytes
plus the algorithm, extractability and usage metadata. -/
structure CryptoKey where
  keyData : List Nat
  algName : String
  hashName : String
  extractable : Bool
  usages : List String
deriving DecidableEq

/-- The `CryptoKey` record a successful HMAC import produces for a secret:
raw UTF-8 key bytes, HMAC/SHA-256, non-extractable, usage `["verify"]`. -/
def hmacImportedKey (channelSecret : String) : CryptoKey :=
  { keyData := utf8Encode channelSecret
    algName := "HMAC"
    hashName := "SHA-256"
    extractable := false
    usages := ["verify"] }

/-- `importKeyFromChannelSecret` from the source: UTF-8 encode the secret
and `crypto.subtle.importKey("raw", keyBytes, HMAC/SHA-256, false,
["verify"])`.  Web Crypto's HMAC import-key operation throws a `DataError`
when the raw key data has zero length, so the returned promise rejects for
the empty secret; `Except.error` models the settled rejection and
`Except.ok` the resolved key. -/
def importKeyFromChannelSecret (channelSecret : String) :
    Except String CryptoKey :=
  if utf8Encode channelSecret = [] then .error "DataError"
  else .ok (hmacImportedKey channelSecret)

/-- `crypto.subtle.verify("HMAC", key, signatureBytes, body)`: recompute the
HMAC-SHA256 tag of `body` under the key bytes and compare it with the
candidate bytes in full (a length mismatch or any byte mismatch gives
`false`). -/
def cryptoSubtleVerify (key : CryptoKey) (signatureBytes body : List Nat) : Bool :=
  hmacSha256 key.keyData body == signatureBytes

/-- `validateSignature` from the source: Base64-decode the signature, then
`crypto.subtle.verify`.  `none` models the promise rejecting because
`decodeBase64` threw on malformed input; `some b` is the resolved boolean. -/
def validateSignature (body : List Nat) (key : CryptoKey) (signature : String) :
    Option Bool :=
  (decodeBase64 signature).map fun signatureBytes =>
    cryptoSubtleVerify key signatureBytes body

/-- The spec's reference `sign` computation (external to the repository,
used to construct fixtures): HMAC-SHA256 of the payload under the UTF-8
bytes of the secret, then standard Base64. -/
def signReference (b : List Nat) (s : String) : String :=
  encodeBase64 (hmacSha256 (utf8Encode s) b)

/-- The composed round trip of the spec's algebraic property: import the
key from the secret, then validate the reference signature for the
payload; a promise rejection at either stage is an `Except.error`. -/
def signatureRoundTrip (s : String) (b : List Nat) : Except String Bool :=
  match importKeyFromChannelSecret s with
  | .error e => .error e
  | .ok key =>
    match validateSignature b key (signReference b s) with
    | none => .error "InvalidCharacterError"
    | some v => .ok v

/-- JavaScript values a caller may pass where the TypeScript type says
`string` (the construction-time `typeof` guard in the source checks the
dynamic type). -/
inductive JSValue where
  | vstr (s : String)
  | vnum (n : Int)
  | vbool (b : Bool)
  | vnull
  | vundefined
deriving DecidableEq

/-- JavaScript `typeof v === "string"`. -/
def isJsString : JSValue → Bool
  | .vstr _ => true
  | _ => false

/-- The interceptor closure returned by `lineBotMiddleware`: it captures
the one `cryptoKey` promise created at construction, modelled by its
settled outcome (a resolved key or the `DataError` rejection). -/
structure LineBotInterceptor where
  cryptoKey : Except String CryptoKey

/-- A request as the handler sees it: the result of the case-insensitive
header lookup `c.req.header("x-line-signature")` (`none` when the header is
absent) and the raw body bytes `c.req.arrayBuffer()` yields. -/
structure MwRequest where
  signatureHeader : Option String
  body : List Nat
deriving DecidableEq

/-- How one middleware invocation ends: an `HTTPException(status, message)`
thrown by the handler, some other JavaScript error propagating (the
`InvalidCharacterError` of a malformed Base64 signature), or forwarding to
`next`, whose outcome `a` is returned unchanged. -/
inductive MwResult (α : Type) where
  | httpException (status : Nat) (message : String)
  | jsError (message : String)
  | forwarded (a : α)
deriving DecidableEq

/-- Observable trace of one middleware invocation: its result, whether the
body was read, and how often `validateSignature` and `next` were called. -/
structure MwTrace (α : Type) where
  result : MwResult α
  bodyRead : Bool
  validateCalls : Nat
  nextCalls : Nat
deriving DecidableEq

/-- JavaScript falsiness of the header lookup result: `undefined` (absent
header) and the empty string are falsy. -/
def headerFalsy : Option String → Bool
  | none => true
  | some s => s == ""

/-- The request handler closure inside `lineBotMiddleware`, given the
resolved verification key (the behavior once `await cryptoKey` has
succeeded; `lineBotHandlerAwait` supplies the await itself): read the
header; if falsy, throw `HTTPException(401, "no signature")` (before the
body is read); otherwise read the body and call `validateSignature`; a
thrown decode error propagates; on `false` throw
`HTTPException(401, "signature validation failed")`; otherwise
`await next()`, whose outcome is returned unchanged. -/
def lineBotHandler {α : Type} (cryptoKey : CryptoKey) (req : MwRequest)
    (next : α) : MwTrace α :=
  match req.signatureHeader with
  | none => ⟨.httpException 401 "no signature", false, 0, 0⟩
  | some signature =>
    if signature == "" then ⟨.httpException 401 "no signature", false, 0, 0⟩
    else
      match validateSignature req.body cryptoKey signature with
      | none => ⟨.jsError "InvalidCharacterError", true, 1, 0⟩
      | some false =>
          ⟨.httpException 401 "signature validation failed", true, 1, 0⟩
      | some true => ⟨.forwarded next, true, 1, 1⟩

/-- The full per-request closure including the `await cryptoKey` step: the
header check runs before anything else, then the body is read; awaiting a
rejected key promise throws, so its error propagates before
`validateSignature` can run, while a resolved key continues as
`lineBotHandler`. -/
def lineBotHandlerAwait {α : Type} (cryptoKey : Except String CryptoKey)
    (req : MwRequest) (next : α) : MwTrace α :=
  match cryptoKey with
  | .ok key => lineBotHandler key req next
  | .error e =>
    match req.signatureHeader with
    | none => ⟨.httpException 401 "no signature", false, 0, 0⟩
    | some signature =>
      if signature == "" then ⟨.httpException 401 "no signature", false, 0, 0⟩
      else ⟨.jsError e, true, 0, 0⟩

/-- `lineBotMiddleware` from the source: `typeof channelSecret !== "string"`
throws `Error("no channel secret")` synchronously; otherwise the key
derivation is started once and the handler closure over it is returned. -/
def lineBotMiddleware (channelSecret : JSValue) :
    Except String LineBotInterceptor :=
  match channelSecret with
  | .vstr s => .ok ⟨importKeyFromChannelSecret s⟩
  | _ => .error "no channel secret"

/-- Run the interceptor on one request: the closure awaits and uses the
single key derivation it captured at construction. -/
def runInterceptor {α : Type} (i : LineBotInterceptor) (req : MwRequest)
    (next : α) : MwTrace α :=
  lineBotHandlerAwait i.cryptoKey req next

theorem b64Value_b64Char : ∀ v < 64, b64Value (b64Char v) = some v := by decide

theorem encodeVals_lt (l : List Nat) (h : ∀ x ∈ l, x < 256) :
    ∀ v ∈ encodeVals l, v < 64 := by
  induction l using encodeVals.induct with
  | case1 a b c rest ih =>
      intro v hv
      have ha : a < 256 := h a (by simp)
      have hb : b < 256 := h b (by simp)
      have hc : c < 256 := h c (by simp)
      simp only [encodeVals, List.mem_cons] at hv
      rcases hv with rfl | rfl | rfl | rfl | hv
      · omega
      · omega
      · omega
      · omega
      · exact ih (fun x hx => h x (by simp [hx])) v hv
  | case2 a b =>
      intro v hv
      have ha : a < 256 := h a (by simp)
      have hb : b < 256 := h b (by simp)
      simp only [encodeVals, List.mem_cons] at hv
      rcases hv with rfl | rfl | rfl | hv
      · omega
      · omega
      · omega
      · simp at hv
  | case3 a =>
      intro v hv
      have ha : a < 256 := h a (by simp)
      simp only [encodeVals, List.mem_cons] at hv
      rcases hv with rfl | rfl | hv
      · omega
      · omega
      · simp at hv
  | case4 => intro v hv; simp [encodeVals] at hv

theorem decodeVals_encodeVals (l : List Nat) (h : ∀ x ∈ l, x < 256) :
    decodeVals (encodeVals l) = l := by
  induction l using encodeVals.induct with
  | case1 a b c rest ih =>
      have ha : a < 256 := h a (by simp)
      have hb : b < 256 := h b (by simp)
      have hc : c < 256 := h c (by simp)
      simp only [encodeVals, decodeVals, List.cons.injEq]
      exact ⟨by omega, by omega, by omega, ih (fun x hx => h x (by simp [hx]))⟩
  | case2 a b =>
      have ha : a < 256 := h a (by simp)
      have hb : b < 256 := h b (by simp)
      simp only [encodeVals, decodeVals, List.cons.injEq]
      exact ⟨by omega, by omega, trivial⟩
  | case3 a =>
      have ha : a < 256 := h a (by simp)
      simp only [encodeVals, decodeVals, List.cons.injEq]
      exact ⟨by omega, trivial⟩
  | case4 => rfl

theorem encodeVals_length_mod (l : List Nat) :
    (encodeVals l).length % 4 = l.length % 3 + (if l.length % 3 = 0 then 0 else 1) := by
  induction l using encodeVals.induct with
  | case1 a b c rest ih =>
      simp only [encodeVals, List.length_cons]
      have h3 : (rest.length + 1 + 1 + 1) % 3 = rest.length % 3 := by omega
      simp only [h3]
      by_cases h0 : rest.length % 3 = 0 <;> simp only [h0, if_true, if_false] at ih ⊢ <;> omega
  | case2 a b => simp [encodeVals]
  | case3 a => simp [encodeVals]
  | case4 => simp [encodeVals]

theorem b64Char_ne_pad : ∀ v < 64, b64Char v ≠ '=' := by decide

theorem b64Char_not_ws : ∀ v < 64, isB64Ws (b64Char v) = false := by decide

theorem dropPads_cons_ne (c : Char) (t : List Char) (hc : c ≠ '=') :
    dropPads (c :: t) = c :: t := by
  unfold dropPads
  split
  · rename_i heq; rw [List.cons.injEq] at heq; exact absurd heq.1 hc
  · rename_i heq; rw [List.cons.injEq] at heq; exact absurd heq.1 hc
  · rfl

theorem dropPads_pad_cons (c : Char) (t : List Char) (hc : c ≠ '=') :
    dropPads ('=' :: c :: t) = c :: t := by
  unfold dropPads
  split
  · rename_i heq
    rw [List.cons.injEq, List.cons.injEq] at heq
    exact absurd heq.2.1 hc
  · rename_i heq; rw [List.cons.injEq] at heq; exact heq.2.symm
  · rename_i hne1 hne2; exact absurd rfl (hne2 (c :: t))

theorem b64Filtered_encodeBase64 (l : List Nat) (h : ∀ x ∈ l, x < 256) :
    b64Filtered (encodeBase64 l) = (encodeVals l).map b64Char ++ b64Pads l.length := by
  have hv := encodeVals_lt l h
  unfold b64Filtered
  have hdata : (encodeBase64 l).data = (encodeVals l).map b64Char ++ b64Pads l.length := rfl
  rw [hdata]
  apply List.filter_eq_self.mpr
  intro c hc
  rcases List.mem_append.mp hc with hc | hc
  · rcases List.mem_map.mp hc with ⟨v, hvm, rfl⟩
    simp [b64Char_not_ws v (hv v hvm)]
  · have hc' : c = '=' := by unfold b64Pads at hc; split at hc <;> simp_all
    subst hc'; decide

theorem b64Stripped_encodeBase64 (l : List Nat) (h : ∀ x ∈ l, x < 256) :
    b64Stripped (encodeBase64 l) = (encodeVals l).map b64Char := by
  have hv := encodeVals_lt l h
  have hne : ∀ c ∈ (encodeVals l).map b64Char, c ≠ '=' := by
    intro c hc
    rcases List.mem_map.mp hc with ⟨v, hvm, rfl⟩
    exact b64Char_ne_pad v (hv v hvm)
  have hmod := encodeVals_length_mod l
  unfold b64Stripped
  rw [b64Filtered_encodeBase64 l h]
  have hlen0 : (((encodeVals l).map b64Char) ++ b64Pads l.length).length % 4 = 0 := by
    rw [List.length_append, List.length_map]
    unfold b64Pads
    split
    · rename_i h1; rw [h1] at hmod; simp at hmod; simp; omega
    · split
      · rename_i h1 h2; rw [h2] at hmod; simp at hmod; simp; omega
      · rename_i h1 h2
        have h0 : l.length % 3 = 0 := by omega
        rw [h0] at hmod; simp at hmod; simp; omega
  rw [if_pos hlen0, List.reverse_append]
  unfold b64Pads
  split
  · rename_i h1
    show (dropPads ('=' :: '=' :: ((encodeVals l).map b64Char).reverse)).reverse = _
    rw [show ∀ t, dropPads ('=' :: '=' :: t) = t from fun _ => rfl, List.reverse_reverse]
  · split
    · rename_i h1 h2
      have hnonnil : (encodeVals l).map b64Char ≠ [] := by
        intro hnil
        rw [h2] at hmod; simp at hmod
        have : ((encodeVals l).map b64Char).length = 0 := by rw [hnil]; rfl
        rw [List.length_map] at this
        omega
      cases hrev : ((encodeVals l).map b64Char).reverse with
      | nil => exact absurd (List.reverse_eq_nil_iff.mp hrev) hnonnil
      | cons hd tl =>
        have hhd : hd ∈ (encodeVals l).map b64Char := by
          rw [← List.mem_reverse, hrev]; simp
        show (dropPads ('=' :: hd :: tl)).reverse = _
        rw [dropPads_pad_cons hd tl (hne hd hhd), ← hrev, List.reverse_reverse]
    · rename_i h1 h2
      show (dropPads ([] ++ ((encodeVals l).map b64Char).reverse)).reverse = _
      rw [List.nil_append]
      cases hrev : ((encodeVals l).map b64Char).reverse with
      | nil =>
        rw [List.reverse_eq_nil_iff.mp hrev]; rfl
      | cons hd tl =>
        have hhd : hd ∈ (encodeVals l).map b64Char := by
          rw [← List.mem_reverse, hrev]; simp
        rw [dropPads_cons_ne hd tl (hne hd hhd), ← hrev, List.reverse_reverse]

theorem decodeBase64_encodeBase64 (l : List Nat) (h : ∀ x ∈ l, x < 256) :
    decodeBase64 (encodeBase64 l) = some l := by
  have hv := encodeVals_lt l h
  have hs := b64Stripped_encodeBase64 l h
  have hmod := encodeVals_length_mod l
  unfold decodeBase64
  rw [hs, List.length_map]
  have h1 : ¬ (encodeVals l).length % 4 = 1 := by
    by_cases h0 : l.length % 3 = 0
    · simp [h0] at hmod; omega
    · simp [h0] at hmod; omega
  rw [if_neg h1]
  have h2 : (((encodeVals l).map b64Char).any fun c => (b64Value c).isNone) = false := by
    rw [List.any_eq_false]
    intro c hc
    rcases List.mem_map.mp hc with ⟨v, hvm, rfl⟩
    rw [b64Value_b64Char v (hv v hvm)]
    simp
  rw [h2]
  simp only [Bool.false_eq_true, if_false]
  rw [List.map_map]
  have h3 : (encodeVals l).map ((fun c => (b64Value c).getD 0) ∘ b64Char) = encodeVals l := by
    have := List.map_congr_left (l := encodeVals l)
      (f := (fun c => (b64Value c).getD 0) ∘ b64Char) (g := id) ?_
    · rw [this, List.map_id]
    · intro v hvm
      simp only [Function.comp_apply, b64Value_b64Char v (hv v hvm), Option.getD_some, id]
  rw [h3, decodeVals_encodeVals l h]

theorem wordBytesBE_lt (w : Nat) : ∀ x ∈ wordBytesBE w, x < 256 := by
  intro x hx
  simp only [wordBytesBE, List.mem_cons, List.not_mem_nil, or_false] at hx
  rcases hx with rfl | rfl | rfl | rfl <;> omega

theorem sha256_lt (m : List Nat) : ∀ x ∈ sha256 m, x < 256 := by
  intro x hx
  simp only [sha256, List.mem_flatMap] at hx
  rcases hx with ⟨w, _, hxw⟩
  exact wordBytesBE_lt w x hxw

theorem hmacSha256_lt (k m : List Nat) : ∀ x ∈ hmacSha256 k m, x < 256 := by
  intro x hx
  simp only [hmacSha256] at hx
  exact sha256_lt _ x hx

/-- C8 counterexample: at the empty secret the round trip does not return
`true` — the HMAC key import rejects a zero-length raw key with
`DataError`, so the whole pipeline throws instead. -/
theorem signatureRoundTrip_empty_secret_throws :
    signatureRoundTrip "" [] = Except.error "DataError" := rfl

/-- C8 amended: for every secret whose key import succeeds (every
non-empty secret) and every byte payload `b`, `validateSignature` accepts
the signature built by the reference HMAC-SHA256-then-Base64 computation
`sign`. -/
theorem validateSignature_signReference_roundtrip (s : String) (b : List Nat)
    (key : CryptoKey) (hkey : importKeyFromChannelSecret s = Except.ok key) :
    validateSignature b key (signReference b s) = some true := by
  have hk : key = hmacImportedKey s := by
    unfold importKeyFromChannelSecret at hkey
    split at hkey
    · exact absurd hkey (by simp)
    · injection hkey with h
      exact h.symm
  subst hk
  unfold validateSignature signReference
  rw [decodeBase64_encodeBase64 _ (hmacSha256_lt _ _)]
  simp [cryptoSubtleVerify, hmacImportedKey]

/-- Witness for C8 at a concrete non-empty secret. -/
theorem validateSignature_signReference_roundtrip_witness :
    importKeyFromChannelSecret "k" = Except.ok (hmacImportedKey "k") ∧
    validateSignature [] (hmacImportedKey "k") (signReference [] "k") = some true :=
  ⟨rfl,
   validateSignature_signReference_roundtrip "k" [] (hmacImportedKey "k") rfl⟩

set_option maxRecDepth 100000

/-- The embedding reproduces the spec's Scenario A fixture: secret
`test_secret`, body `{"hello":"world"}`, the documented signature is
accepted and the request is forwarded. -/
example :
    lineBotHandler (hmacImportedKey "test_secret")
      ⟨some "t7Hn4ZDHqs6e+wdvI5TyQIvzie0DmMUmuXEBqyyE/tM=",
       utf8Encode "\x7b\"hello\":\"world\"\x7d"⟩ (200 : Nat) =
    ⟨MwResult.forwarded 200, true, 1, 1⟩ := by decide

/-- C1: for every payload, key and well-formed Base64 signature string,
`validateSignature` resolves to `true` exactly when the HMAC-SHA256 digest
of the payload under the key equals the decoded signature bytes in full,
and resolves to `false` whenever the digest differs. -/
theorem validateSignature_true_iff_digest (body : List Nat) (key : CryptoKey)
    (sig : String) (sigBytes : List Nat)
    (hdec : decodeBase64 sig = some sigBytes) :
    (validateSignature body key sig = some true ↔
      hmacSha256 key.keyData body = sigBytes) ∧
    (hmacSha256 key.keyData body ≠ sigBytes →
      validateSignature body key sig = some false) := by
  unfold validateSignature
  rw [hdec]
  constructor
  · simp [cryptoSubtleVerify]
  · intro hne
    simp [cryptoSubtleVerify]
    exact hne

/-- Witness for C1 at a concrete input. -/
theorem validateSignature_true_iff_digest_witness :
    decodeBase64 "AAAA" = some [0, 0, 0] ∧
    ((validateSignature [] (hmacImportedKey "k") "AAAA" = some true ↔
      hmacSha256 (hmacImportedKey "k").keyData [] = [0, 0, 0]) ∧
    (hmacSha256 (hmacImportedKey "k").keyData [] ≠ [0, 0, 0] →
      validateSignature [] (hmacImportedKey "k") "AAAA" = some false)) :=
  ⟨by decide,
   validateSignature_true_iff_digest [] (hmacImportedKey "k") "AAAA"
     [0, 0, 0] (by decide)⟩

/-- C2, at the failing input: for a signature that is not well-formed
Base64 the atob-based `decodeBase64` throws, so `validateSignature` rejects
(modelled `none`) instead of resolving to `false`, and the middleware
propagates a non-HTTP error instead of a 401 rejection. -/
theorem validateSignature_malformed_base64_throws :
    validateSignature [] (hmacImportedKey "secret") "!!!" = none ∧
    lineBotHandler (hmacImportedKey "secret")
      ⟨some "!!!", []⟩ (0 : Nat) =
      ⟨MwResult.jsError "InvalidCharacterError", true, 1, 0⟩ := by
  constructor
  · decide
  · decide

/-- C3: constructing the middleware with any non-string value throws the
configuration error synchronously, and with any string value returns the
interceptor without throwing. -/
theorem lineBotMiddleware_typeof_guard (v : JSValue) :
    (isJsString v = false → lineBotMiddleware v = .error "no channel secret") ∧
    (∀ s, v = .vstr s → lineBotMiddleware v = .ok ⟨importKeyFromChannelSecret s⟩) := by
  cases v <;> constructor <;>
    first
      | (intro h; rfl)
      | (intro h; simp [isJsString] at h)
      | (intro s h; cases h; rfl)
      | (intro s h; simp at h)

/-- Witness for C3 at concrete non-string and string inputs. -/
theorem lineBotMiddleware_typeof_guard_witness :
    isJsString JSValue.vnull = false ∧
    lineBotMiddleware JSValue.vnull = .error "no channel secret" ∧
    lineBotMiddleware (JSValue.vstr "abc") = .ok ⟨importKeyFromChannelSecret "abc"⟩ :=
  ⟨rfl, (lineBotMiddleware_typeof_guard JSValue.vnull).1 rfl,
   (lineBotMiddleware_typeof_guard (JSValue.vstr "abc")).2 "abc" rfl⟩

/-- C4 counterexample: constructing the interceptor with the empty string
secret succeeds (the source only checks `typeof channelSecret`), so the
empty string is not a configuration error. -/
theorem lineBotMiddleware_empty_secret_ok :
    lineBotMiddleware (JSValue.vstr "") = .ok ⟨importKeyFromChannelSecret ""⟩ := rfl

/-- C4 amended: construction only requires the secret to have string type;
every string, the empty string included, is accepted and yields the
interceptor, while non-strings alone are configuration errors. -/
theorem lineBotMiddleware_accepts_every_string (s : String) :
    lineBotMiddleware (JSValue.vstr s) = .ok ⟨importKeyFromChannelSecret s⟩ := rfl

/-- C9: `validateSignature` is deterministic and stateless — any two
invocations on the same `(body, key, signature)` triple return the same
result. -/
theorem validateSignature_deterministic (body : List Nat) (key : CryptoKey)
    (sig : String) (r1 r2 : Option Bool)
    (h1 : r1 = validateSignature body key sig)
    (h2 : r2 = validateSignature body key sig) : r1 = r2 :=
  h1.trans h2.symm

/-- Witness for C9: two concrete invocations on the same triple agree. -/
theorem validateSignature_deterministic_witness :
    some false = validateSignature [] (hmacImportedKey "k") "AAAA" ∧
    (some false : Option Bool) = some false :=
  ⟨by decide,
   validateSignature_deterministic [] (hmacImportedKey "k") "AAAA"
     (some false) (some false) (by decide) (by decide)⟩

/-- C10: a present but empty `x-line-signature` header is falsy in the
source's `if (!signature)` check, so the request is rejected with
401 "no signature" before the body is read and without calling
`validateSignature`. -/
theorem lineBotHandler_empty_header {α : Type} (key : CryptoKey)
    (body : List Nat) (next : α) :
    lineBotHandler key ⟨some "", body⟩ next =
      ⟨MwResult.httpException 401 "no signature", false, 0, 0⟩ := rfl

theorem lineBotHandler_some_of_val {α : Type} (key : CryptoKey) (body : List Nat)
    (s : String) (next : α) (hs : s ≠ "") :
    lineBotHandler key ⟨some s, body⟩ next =
      match validateSignature body key s with
      | none => ⟨.jsError "InvalidCharacterError", true, 1, 0⟩
      | some false => ⟨.httpException 401 "signature validation failed", true, 1, 0⟩
      | some true => ⟨.forwarded next, true, 1, 1⟩ := by
  have hb : (s == "") = false := by simp [hs]
  simp [lineBotHandler, hb]

theorem lineBotHandler_some_none {α : Type} (key : CryptoKey) (body : List Nat)
    (s : String) (next : α) (hs : s ≠ "")
    (hval : validateSignature body key s = none) :
    lineBotHandler key ⟨some s, body⟩ next =
      ⟨.jsError "InvalidCharacterError", true, 1, 0⟩ := by
  rw [lineBotHandler_some_of_val key body s next hs, hval]

theorem lineBotHandler_some_false {α : Type} (key : CryptoKey) (body : List Nat)
    (s : String) (next : α) (hs : s ≠ "")
    (hval : validateSignature body key s = some false) :
    lineBotHandler key ⟨some s, body⟩ next =
      ⟨.httpException 401 "signature validation failed", true, 1, 0⟩ := by
  rw [lineBotHandler_some_of_val key body s next hs, hval]

theorem lineBotHandler_some_true {α : Type} (key : CryptoKey) (body : List Nat)
    (s : String) (next : α) (hs : s ≠ "")
    (hval : validateSignature body key s = some true) :
    lineBotHandler key ⟨some s, body⟩ next = ⟨.forwarded next, true, 1, 1⟩ := by
  rw [lineBotHandler_some_of_val key body s next hs, hval]

/-- C5: every `HTTPException` the handler throws carries status 401 and one
of the two fixed reasons; a falsy header (absent or empty) yields
401 "no signature" with the body unread and `validateSignature` uncalled;
a present non-empty header whose validation resolves `false` yields
401 "signature validation failed".  No other rejection status or reason is
produced. -/
theorem lineBotHandler_rejections {α : Type} (key : CryptoKey)
    (req : MwRequest) (next : α) :
    (∀ st m, (lineBotHandler key req next).result = MwResult.httpException st m →
      st = 401 ∧ (m = "no signature" ∨ m = "signature validation failed")) ∧
    (headerFalsy req.signatureHeader = true →
      lineBotHandler key req next =
        ⟨MwResult.httpException 401 "no signature", false, 0, 0⟩) ∧
    (∀ s, req.signatureHeader = some s → s ≠ "" →
      validateSignature req.body key s = some false →
      (lineBotHandler key req next).result =
        MwResult.httpException 401 "signature validation failed") := by
  obtain ⟨hdr, body⟩ := req
  cases hdr with
  | none =>
    refine ⟨?_, fun _ => rfl, ?_⟩
    · intro st m hres
      have h : MwResult.httpException 401 "no signature" =
          MwResult.httpException st m := hres
      injection h with h1 h2
      exact ⟨h1.symm, Or.inl h2.symm⟩
    · intro s hsome; exact absurd hsome (by simp)
  | some s =>
    by_cases hs : s = ""
    · subst hs
      refine ⟨?_, fun _ => rfl, ?_⟩
      · intro st m hres
        have h : MwResult.httpException 401 "no signature" =
            MwResult.httpException st m := hres
        injection h with h1 h2
        exact ⟨h1.symm, Or.inl h2.symm⟩
      · intro s' hsome hne hval
        injection hsome with h'
        exact absurd h'.symm hne
    · cases hval : validateSignature body key s with
      | none =>
        have htr := lineBotHandler_some_none key body s next hs hval
        refine ⟨?_, ?_, ?_⟩
        · intro st m hres
          rw [htr] at hres
          exact absurd hres (by simp)
        · intro hfal
          simp [headerFalsy] at hfal
          exact absurd hfal hs
        · intro s' hsome hne hval'
          injection hsome with h'
          subst h'
          rw [hval] at hval'
          exact absurd hval' (by simp)
      | some b =>
        cases b with
        | false =>
          have htr := lineBotHandler_some_false key body s next hs hval
          refine ⟨?_, ?_, ?_⟩
          · intro st m hres
            rw [htr] at hres
            have h : MwResult.httpException 401 "signature validation failed" =
                MwResult.httpException st m := hres
            injection h with h1 h2
            exact ⟨h1.symm, Or.inr h2.symm⟩
          · intro hfal
            simp [headerFalsy] at hfal
            exact absurd hfal hs
          · intro s' hsome hne hval'
            rw [htr]
        | true =>
          have htr := lineBotHandler_some_true key body s next hs hval
          refine ⟨?_, ?_, ?_⟩
          · intro st m hres
            rw [htr] at hres
            exact absurd hres (by simp)
          · intro hfal
            simp [headerFalsy] at hfal
            exact absurd hfal hs
          · intro s' hsome hne hval'
            injection hsome with h'
            subst h'
            rw [hval] at hval'
            exact absurd hval' (by simp)

/-- Witness for C5: a request without the header is rejected 401 "no signature";
a concrete wrong signature is rejected 401 "signature validation failed". -/
theorem lineBotHandler_rejections_witness :
    lineBotHandler (hmacImportedKey "k")
      ⟨(none : Option String), ([] : List Nat)⟩ (0 : Nat) =
      ⟨MwResult.httpException 401 "no signature", false, 0, 0⟩ ∧
    (lineBotHandler (hmacImportedKey "k")
      ⟨some "AAAA", ([] : List Nat)⟩ (0 : Nat)).result =
      MwResult.httpException 401 "signature validation failed" :=
  ⟨(lineBotHandler_rejections (hmacImportedKey "k")
      ⟨none, []⟩ 0).2.1 rfl,
   (lineBotHandler_rejections (hmacImportedKey "k")
      ⟨some "AAAA", []⟩ 0).2.2 "AAAA" rfl (by decide) (by decide)⟩

/-- C6: the downstream continuation is called at most once; it is called
exactly once precisely when the header is present, non-empty and
`validateSignature` resolves `true`; and in that case the handler returns
`next`'s outcome unchanged with nothing added after the forward. -/
theorem lineBotHandler_next_policy {α : Type} (key : CryptoKey)
    (req : MwRequest) (next : α) :
    ((lineBotHandler key req next).nextCalls = 0 ∨
      (lineBotHandler key req next).nextCalls = 1) ∧
    ((lineBotHandler key req next).nextCalls = 1 ↔
      ∃ s, req.signatureHeader = some s ∧ s ≠ "" ∧
        validateSignature req.body key s = some true) ∧
    ((lineBotHandler key req next).nextCalls = 1 →
      lineBotHandler key req next = ⟨MwResult.forwarded next, true, 1, 1⟩) := by
  obtain ⟨hdr, body⟩ := req
  cases hdr with
  | none =>
    refine ⟨Or.inl rfl, ⟨fun h => absurd h (by simp [lineBotHandler]), ?_⟩,
      fun h => absurd h (by simp [lineBotHandler])⟩
    rintro ⟨s, hsome, -, -⟩
    exact absurd hsome (by simp)
  | some s =>
    by_cases hs : s = ""
    · subst hs
      refine ⟨Or.inl rfl, ⟨fun h => absurd h (by simp [lineBotHandler]), ?_⟩,
        fun h => absurd h (by simp [lineBotHandler])⟩
      rintro ⟨s', hsome, hne, -⟩
      injection hsome with h'
      exact absurd h'.symm hne
    · cases hval : validateSignature body key s with
      | none =>
        have htr := lineBotHandler_some_none key body s next hs hval
        rw [htr]
        refine ⟨Or.inl rfl, ⟨fun h => absurd h (by simp), ?_⟩,
          fun h => absurd h (by simp)⟩
        rintro ⟨s', hsome, -, hval'⟩
        injection hsome with h'
        subst h'
        rw [hval] at hval'
        exact absurd hval' (by simp)
      | some b =>
        cases b with
        | false =>
          have htr := lineBotHandler_some_false key body s next hs hval
          rw [htr]
          refine ⟨Or.inl rfl, ⟨fun h => absurd h (by simp), ?_⟩,
            fun h => absurd h (by simp)⟩
          rintro ⟨s', hsome, -, hval'⟩
          injection hsome with h'
          subst h'
          rw [hval] at hval'
          exact absurd hval' (by simp)
        | true =>
          have htr := lineBotHandler_some_true key body s next hs hval
          rw [htr]
          exact ⟨Or.inr rfl, ⟨fun _ => ⟨s, rfl, hs, hval⟩, fun _ => rfl⟩,
            fun _ => rfl⟩

/-- Witness for C6: with a correct concrete signature the handler forwards
and returns the downstream outcome unchanged. -/
theorem lineBotHandler_next_policy_witness :
    lineBotHandler (hmacImportedKey "k")
      ⟨some "i7mQxAp9YcuXWXqUISUCW+UKyL63RDbjc1uYiTp/ZiA=", ([] : List Nat)⟩
      (0 : Nat) = ⟨MwResult.forwarded 0, true, 1, 1⟩ :=
  (lineBotHandler_next_policy (hmacImportedKey "k")
    ⟨some "i7mQxAp9YcuXWXqUISUCW+UKyL63RDbjc1uYiTp/ZiA=", []⟩ 0).2.2 (by decide)

/-- C7: when construction succeeds for a secret, the interceptor stores the
verification key derived from that secret at construction time, every
request it handles runs against that one stored key (the key is never
re-derived per request), and derivation is deterministic in the secret. -/
theorem lineBotMiddleware_key_cached (s : String) (i : LineBotInterceptor)
    (hok : lineBotMiddleware (JSValue.vstr s) = Except.ok i) :
    i.cryptoKey = importKeyFromChannelSecret s ∧
    (∀ (α : Type) (req : MwRequest) (next : α),
      runInterceptor i req next =
        lineBotHandlerAwait (importKeyFromChannelSecret s) req next) ∧
    (∀ s2 : String, s2 = s →
      importKeyFromChannelSecret s2 = importKeyFromChannelSecret s) := by
  have h : (Except.ok ⟨importKeyFromChannelSecret s⟩ :
      Except String LineBotInterceptor) = Except.ok i := hok
  injection h with h'
  subst h'
  exact ⟨rfl, fun α req next => rfl, fun s2 h2 => by rw [h2]⟩

/-- Witness for C7 at a concrete secret and request. -/
theorem lineBotMiddleware_key_cached_witness :
    (⟨importKeyFromChannelSecret "abc"⟩ : LineBotInterceptor).cryptoKey =
      importKeyFromChannelSecret "abc" ∧
    runInterceptor ⟨importKeyFromChannelSecret "abc"⟩
      ⟨(none : Option String), ([] : List Nat)⟩ (0 : Nat) =
      lineBotHandlerAwait (importKeyFromChannelSecret "abc") ⟨none, []⟩ 0 ∧
    importKeyFromChannelSecret "abc" = importKeyFromChannelSecret "abc" :=
  ⟨(lineBotMiddleware_key_cached "abc" ⟨importKeyFromChannelSecret "abc"⟩ rfl).1,
   (lineBotMiddleware_key_cached "abc" ⟨importKeyFromChannelSecret "abc"⟩ rfl).2.1
     Nat ⟨none, []⟩ 0,
   (lineBotMiddleware_key_cached "abc" ⟨importKeyFromChannelSecret "abc"⟩ rfl).2.2
     "abc" rfl⟩
